import Mathlib

/-!
Verification of the atkmod library core: the podman command-line builder,
the process runner with its run context, and the deployment lifecycle
state machine with its step iterator and hook registry.

The Go source is embedded shallowly: builder methods become pure functions
on the CliParts record, the Go map for ports becomes an association list
with last-write-wins update (the text/template engine iterates map keys in
sorted order, embedded here as an insertion sort by key), and the external
child process is an oracle from the command string to a process result.
State handlers, which in Go are closures mutating the module through the
Notifier interface, are embedded as a small command datatype together with
an interpreter that performs exactly the mutations the Go handlers perform.
-/

namespace Atkmod

/-! Data model: EnvVarInfo, VolumeInfo, ImageInfo (image descriptor). -/

structure EnvVarInfo where
  Name : String := ""
  Value : String := ""
deriving DecidableEq

/-- Rendering of an environment variable, Go method String() on EnvVarInfo. -/
def EnvVarInfo.render (e : EnvVarInfo) : String := e.Name ++ "=" ++ e.Value

structure VolumeInfo where
  MountPath : String := ""
  Name : String := ""
deriving DecidableEq

structure ImageInfo where
  Image : String := ""
  Script : String := ""
  Command : List String := []
  Args : List String := []
  EnvVars : List EnvVarInfo := []
  Volumes : List VolumeInfo := []
deriving DecidableEq

/-! CliParts and the fluent builder (PodmanCliCommandBuilder holds one
CliParts value; the builder methods are embedded directly on CliParts).
Go zero values are the field defaults. The Go map for Ports is an
association list with unique keys kept by last-write-wins update. -/

structure CliParts where
  Path : String := ""
  Cmd : String := ""
  Image : String := ""
  Flags : List String := []
  Workdir : String := ""
  VolumeMaps : List String := []
  DefaultVolumeOpt : String := ""
  Ports : List (String × String) := []
  UidMaps : List String := []
  Envvars : List EnvVarInfo := []
  Commands : List String := []
deriving DecidableEq

/-- Go map assignment m[k] = v on an association list: replace the binding
if the key is present, else append. -/
def updateAssoc {α β : Type} [DecidableEq α] : List (α × β) → α → β → List (α × β)
  | [], k, v => [(k, v)]
  | p :: rest, k, v => if p.1 = k then (k, v) :: rest else p :: updateAssoc rest k v

/-- Go map read m[k] on an association list. -/
def lookupAssoc {α β : Type} [DecidableEq α] : List (α × β) → α → Option β
  | [], _ => none
  | p :: rest, k => if p.1 = k then some p.2 else lookupAssoc rest k

def CliParts.WithPath (b : CliParts) (path : String) : CliParts :=
  { b with Path := path }

def CliParts.WithImage (b : CliParts) (imageName : String) : CliParts :=
  { b with Image := imageName }

def CliParts.WithVolumeOpt (b : CliParts) (localdir containerdir opt : String) : CliParts :=
  let volMap :=
    if opt.length > 0 then localdir ++ ":" ++ containerdir ++ ":" ++ opt
    else localdir ++ ":" ++ containerdir
  { b with VolumeMaps := b.VolumeMaps ++ [volMap] }

def CliParts.WithVolume (b : CliParts) (localdir containerdir : String) : CliParts :=
  b.WithVolumeOpt localdir containerdir ""

def CliParts.WithWorkspace (b : CliParts) (localdir : String) : CliParts :=
  b.WithVolume localdir b.Workdir

def CliParts.WithUserMap (b : CliParts) (localUser containerUser number : Int) : CliParts :=
  { b with UidMaps := b.UidMaps ++
      [toString containerUser ++ ":" ++ toString localUser ++ ":" ++ toString number] }

def CliParts.WithPort (b : CliParts) (localport containerport : String) : CliParts :=
  { b with Ports := updateAssoc b.Ports localport containerport }

def CliParts.WithEnvvar (b : CliParts) (name value : String) : CliParts :=
  { b with Envvars := b.Envvars ++ [{ Name := name, Value := value }] }

/-- Go strings.TrimSpace: drop whitespace from both ends of the string.
Written structurally on the character list so that it evaluates inside the
kernel (the library String.trim is defined by well-founded recursion on
byte positions and does not reduce). -/
def trimSpace (s : String) : String :=
  ⟨((s.data.dropWhile Char.isWhitespace).reverse.dropWhile Char.isWhitespace).reverse⟩

def Iif (value orValue : String) : String :=
  if (trimSpace value).length = 0 then orValue else value

/-- Constructor NewPodmanCliCommandBuilder. When no defaults are given, the
Go code consults the ITZ_PODMAN_PATH environment variable; the ambient
environment is passed in explicitly as envPodmanPath. Only Path, Cmd,
Workdir, Flags and Envvars are inherited from the defaults; the remaining
collections start empty. -/
def NewPodmanCliCommandBuilder (cli : Option CliParts) (envPodmanPath : String) : CliParts :=
  let defaults : CliParts :=
    match cli with
    | some c => c
    | none => { Path := envPodmanPath }
  { Path := Iif defaults.Path "/usr/local/bin/podman"
    Cmd := Iif defaults.Cmd "run"
    Workdir := Iif defaults.Workdir "/workspace"
    Flags := defaults.Flags ++ []
    Envvars := defaults.Envvars
    DefaultVolumeOpt := "Z" }

/-- Lexicographic comparison of character lists by code point, the string
order used by the text/template engine when it sorts map keys. Written as
a structural Bool-valued function so it evaluates inside the kernel. -/
def charListLe : List Char → List Char → Bool
  | [], _ => true
  | _ :: _, [] => false
  | c :: cs, d :: ds =>
    if c.toNat < d.toNat then true
    else if d.toNat < c.toNat then false
    else charListLe cs ds

lemma charListLe_total : ∀ x y : List Char, charListLe x y = true ∨ charListLe y x = true
  | [], _ => Or.inl rfl
  | _ :: _, [] => Or.inr rfl
  | c :: cs, d :: ds => by
    by_cases h1 : c.toNat < d.toNat
    · left
      simp [charListLe, h1]
    · by_cases h2 : d.toNat < c.toNat
      · right
        simp [charListLe, h2]
      · cases charListLe_total cs ds with
        | inl h => left; simp [charListLe, h1, h2, h]
        | inr h => right; simp [charListLe, h1, h2, h]

lemma charListLe_trans : ∀ x y z : List Char,
    charListLe x y = true → charListLe y z = true → charListLe x z = true
  | [], _, _, _, _ => rfl
  | c :: cs, [], _, hxy, _ => by simp [charListLe] at hxy
  | c :: cs, d :: ds, [], _, hyz => by simp [charListLe] at hyz
  | c :: cs, d :: ds, e :: es, hxy, hyz => by
    simp only [charListLe] at hxy hyz ⊢
    rcases Nat.lt_trichotomy c.toNat d.toNat with hcd | hcd | hcd
    · rcases Nat.lt_trichotomy d.toNat e.toNat with hde | hde | hde
      · simp [Nat.lt_trans hcd hde]
      · simp [hde ▸ hcd]
      · simp [hcd, Nat.lt_asymm hcd] at hxy
        simp [hde, Nat.lt_asymm hde] at hyz
    · rcases Nat.lt_trichotomy d.toNat e.toNat with hde | hde | hde
      · simp [hcd ▸ hde]
      · rw [hcd, hde]
        rw [hcd] at hxy
        rw [hde] at hyz
        simp only [Nat.lt_irrefl, if_false] at hxy hyz ⊢
        exact charListLe_trans cs ds es hxy hyz
      · simp [hde, Nat.lt_asymm hde] at hyz
    · simp [hcd, Nat.lt_asymm hcd] at hxy

lemma charListLe_antisymm : ∀ x y : List Char,
    charListLe x y = true → charListLe y x = true → x = y
  | [], [], _, _ => rfl
  | [], _ :: _, _, hyx => by simp [charListLe] at hyx
  | _ :: _, [], hxy, _ => by simp [charListLe] at hxy
  | c :: cs, d :: ds, hxy, hyx => by
    simp only [charListLe] at hxy hyx
    rcases Nat.lt_trichotomy c.toNat d.toNat with hcd | hcd | hcd
    · simp [hcd, Nat.lt_asymm hcd] at hyx
    · have hc : c = d := Char.eq_of_val_eq (UInt32.toNat.inj hcd)
      subst hc
      simp [Nat.lt_irrefl] at hxy hyx
      exact congrArg (c :: ·) (charListLe_antisymm cs ds hxy hyx)
    · simp [hcd, Nat.lt_asymm hcd] at hxy

/-- Key order used by the text/template engine when ranging over the Ports
map: keys are iterated in sorted order. -/
def portKeyLe (a b : String × String) : Prop := charListLe a.1.data b.1.data = true

instance : DecidableRel portKeyLe := fun a b =>
  inferInstanceAs (Decidable (charListLe a.1.data b.1.data = true))

instance : IsTotal (String × String) portKeyLe :=
  ⟨fun a b => charListLe_total a.1.data b.1.data⟩

instance : IsTrans (String × String) portKeyLe :=
  ⟨fun _ _ _ h1 h2 => charListLe_trans _ _ _ h1 h2⟩

def sortedPorts (ports : List (String × String)) : List (String × String) :=
  List.insertionSort portKeyLe ports

/-- Build renders the hardcoded template: Path, Cmd, then one space-led
fragment per flag, uid map, volume map, port map entry (in sorted key
order), environment variable, and finally the image when non-empty; the
result is trimmed of leading and trailing whitespace. -/
def Build (b : CliParts) : String :=
  trimSpace (b.Path ++ " " ++ b.Cmd
    ++ String.join (b.Flags.map (fun f => " " ++ f))
    ++ String.join (b.UidMaps.map (fun u => " --uidmap " ++ u))
    ++ String.join (b.VolumeMaps.map (fun v => " -v " ++ v))
    ++ String.join ((sortedPorts b.Ports).map (fun kv => " -p " ++ kv.1 ++ ":" ++ kv.2))
    ++ String.join (b.Envvars.map (fun e => " -e " ++ e.render))
    ++ (if b.Image = "" then "" else " " ++ b.Image))

/-- BuildFrom checks the unsupported command list, then populates image,
environment variables and volume mounts from the descriptor and delegates
to Build. The Go receiver is mutated, so the updated builder is returned
alongside the result. -/
def BuildFrom (b : CliParts) (info : ImageInfo) : CliParts × Except String String :=
  if info.Command.length > 0 then
    (b, Except.error "command is not yet supported")
  else
    let b1 := b.WithImage info.Image
    let b2 := info.EnvVars.foldl (fun acc e => acc.WithEnvvar e.Name e.Value) b1
    let b3 := info.Volumes.foldl (fun acc v => acc.WithVolume v.Name v.MountPath) b2
    (b3, Except.ok (Build b3))

/-! Specification-side rendering for the token-order claim: the list of
tokens in the order the spec states, joined by single spaces. -/

def cliTokens (b : CliParts) : List String :=
  [b.Path, b.Cmd]
  ++ b.Flags
  ++ b.UidMaps.map (fun u => "--uidmap " ++ u)
  ++ b.VolumeMaps.map (fun v => "-v " ++ v)
  ++ (sortedPorts b.Ports).map (fun kv => "-p " ++ kv.1 ++ ":" ++ kv.2)
  ++ b.Envvars.map (fun e => "-e " ++ e.render)
  ++ (if b.Image = "" then [] else [b.Image])

def joinTokens : List String → String
  | [] => ""
  | [t] => t
  | t :: u :: rest => t ++ " " ++ joinTokens (u :: rest)

lemma join_cons (s : String) (l : List String) :
    String.join (s :: l) = s ++ String.join l := by
  apply String.ext
  simp [String.data_join, String.data_append]

lemma join_append (l1 l2 : List String) :
    String.join (l1 ++ l2) = String.join l1 ++ String.join l2 := by
  apply String.ext
  simp [String.data_join, String.data_append]

lemma join_nil : String.join [] = "" := rfl

lemma joinTokens_eq (x : String) (xs : List String) :
    joinTokens (x :: xs) = x ++ String.join (xs.map (fun t => " " ++ t)) := by
  induction xs generalizing x with
  | nil => simp [joinTokens, String.join]
  | cons y ys ih =>
    show x ++ " " ++ joinTokens (y :: ys) = _
    rw [ih y, List.map_cons, join_cons]
    simp [String.append_assoc]

lemma build_eq_joinTokens (b : CliParts) :
    Build b = trimSpace (joinTokens (cliTokens b)) := by
  have hcons : cliTokens b = b.Path :: ([b.Cmd]
      ++ b.Flags
      ++ b.UidMaps.map (fun u => "--uidmap " ++ u)
      ++ b.VolumeMaps.map (fun v => "-v " ++ v)
      ++ (sortedPorts b.Ports).map (fun kv => "-p " ++ kv.1 ++ ":" ++ kv.2)
      ++ b.Envvars.map (fun e => "-e " ++ e.render)
      ++ (if b.Image = "" then [] else [b.Image])) := rfl
  rw [hcons, joinTokens_eq]
  unfold Build
  apply congrArg trimSpace
  simp only [List.map_append, join_append, List.map_map, List.map_cons, List.map_nil,
    join_cons, join_nil, Function.comp_def, String.append_empty]
  have huidlit : (" " ++ "--uidmap " : String) = " --uidmap " := by decide
  have hvollit : (" " ++ "-v " : String) = " -v " := by decide
  have hportlit : (" " ++ "-p " : String) = " -p " := by decide
  have henvlit : (" " ++ "-e " : String) = " -e " := by decide
  have huid : (fun u => " " ++ ("--uidmap " ++ u)) = (fun u : String => " --uidmap " ++ u) := by
    funext u
    rw [← String.append_assoc, huidlit]
  have hvol : (fun v => " " ++ ("-v " ++ v)) = (fun v : String => " -v " ++ v) := by
    funext v
    rw [← String.append_assoc, hvollit]
  have hport : (fun kv : String × String => " " ++ ("-p " ++ kv.1 ++ ":" ++ kv.2))
      = (fun kv : String × String => " -p " ++ kv.1 ++ ":" ++ kv.2) := by
    funext kv
    simp only [← String.append_assoc]
    rw [hportlit]
  have henv : (fun e : EnvVarInfo => " " ++ ("-e " ++ e.render))
      = (fun e : EnvVarInfo => " -e " ++ e.render) := by
    funext e
    rw [← String.append_assoc, henvlit]
  rw [huid, hvol, hport, henv]
  by_cases himg : b.Image = ""
  · simp [himg, String.append_empty, String.append_assoc, String.empty_append, join_nil]
  · simp [himg, String.append_empty, String.append_assoc, String.empty_append, join_cons,
      join_nil]

lemma pairwiseAnd {α : Type} {R S : α → α → Prop} :
    ∀ {l : List α}, l.Pairwise R → l.Pairwise S → l.Pairwise (fun a b => R a b ∧ S a b)
  | [], _, _ => List.Pairwise.nil
  | _ :: _, List.Pairwise.cons hr hrl, List.Pairwise.cons hs hsl =>
    List.Pairwise.cons (fun b hb => ⟨hr b hb, hs b hb⟩) (pairwiseAnd hrl hsl)

lemma sortedPorts_perm_eq {l₁ l₂ : List (String × String)}
    (hp : l₁.Perm l₂) (hnd : (l₁.map Prod.fst).Nodup) :
    sortedPorts l₁ = sortedPorts l₂ := by
  haveI : IsAntisymm (String × String) (fun a b => portKeyLe a b ∧ a.1 ≠ b.1) :=
    ⟨fun a b h1 h2 =>
      (h1.2 (String.ext (charListLe_antisymm _ _ h1.1 h2.1))).elim⟩
  apply List.eq_of_perm_of_sorted
    (r := fun a b : String × String => portKeyLe a b ∧ a.1 ≠ b.1)
  · exact ((List.perm_insertionSort portKeyLe l₁).trans hp).trans
      (List.perm_insertionSort portKeyLe l₂).symm
  · have hle : (sortedPorts l₁).Pairwise portKeyLe := List.sorted_insertionSort portKeyLe l₁
    have hnd₁ : ((sortedPorts l₁).map Prod.fst).Nodup :=
      (((List.perm_insertionSort portKeyLe l₁).map Prod.fst).nodup_iff).mpr hnd
    have hne : (sortedPorts l₁).Pairwise (fun a b : String × String => a.1 ≠ b.1) :=
      (List.pairwise_map).mp hnd₁
    exact pairwiseAnd hle hne
  · have hle : (sortedPorts l₂).Pairwise portKeyLe := List.sorted_insertionSort portKeyLe l₂
    have hnd₂ : ((sortedPorts l₂).map Prod.fst).Nodup := by
      have : (l₂.map Prod.fst).Nodup := ((hp.map Prod.fst).nodup_iff).mp hnd
      exact (((List.perm_insertionSort portKeyLe l₂).map Prod.fst).nodup_iff).mpr this
    have hne : (sortedPorts l₂).Pairwise (fun a b : String × String => a.1 ≠ b.1) :=
      (List.pairwise_map).mp hnd₂
    exact pairwiseAnd hle hne

/-- C1: for every Command-Line Parts value, Build renders the tokens in the
fixed order path, subcommand, flags, uid maps, volume maps, port maps,
environment variables, then the image reference if set, joined by single
spaces with leading and trailing whitespace trimmed; in particular the
literal podman example renders to the exact expected string. -/
theorem c1_build_token_order :
    (∀ b : CliParts, Build b = trimSpace (joinTokens (cliTokens b))) ∧
    Build ((((NewPodmanCliCommandBuilder none "").WithWorkspace
        "/home/myuser/workdir").WithImage "localhost/myimage").WithEnvvar
        "MYVAR" "thisismyvalue")
      = "/usr/local/bin/podman run -v /home/myuser/workdir:/workspace -e MYVAR=thisismyvalue localhost/myimage" :=
  ⟨build_eq_joinTokens, by decide⟩

/-- C10: Build is deterministic with respect to the unordered port map: any
two insertion orders of the same port bindings (unique host-port keys)
render the same command line, because the template engine iterates the map
keys in lexicographically sorted order; the concrete conjunct shows ports
inserted out of order rendering sorted by host-port key. -/
theorem c10_build_ports_deterministic :
    (∀ (b : CliParts) (l₁ l₂ : List (String × String)),
      l₁.Perm l₂ → (l₁.map Prod.fst).Nodup →
      Build { b with Ports := l₁ } = Build { b with Ports := l₂ }) ∧
    Build { NewPodmanCliCommandBuilder none "" with
        Ports := [("8080", "80"), ("443", "443"), ("23", "22")] }
      = "/usr/local/bin/podman run -p 23:22 -p 443:443 -p 8080:80" := by
  constructor
  · intro b l₁ l₂ hp hnd
    unfold Build
    dsimp only
    rw [sortedPorts_perm_eq hp hnd]
  · decide

/-- C10 witness: the determinism part applied at a concrete pair of
insertion orders of the same two port bindings. -/
theorem c10_build_ports_deterministic_witness :
    Build { NewPodmanCliCommandBuilder none "" with Ports := [("9090", "90"), ("23", "22")] }
      = Build { NewPodmanCliCommandBuilder none "" with Ports := [("23", "22"), ("9090", "90")] } :=
  c10_build_ports_deterministic.1 (NewPodmanCliCommandBuilder none "")
    [("9090", "90"), ("23", "22")] [("23", "22"), ("9090", "90")]
    (List.Perm.swap ("23", "22") ("9090", "90") []) (by decide)

/-! Run context and process runner. The child process is external: it is
modelled by an oracle mapping the command string to a process result,
mirroring the three outcomes of exec Run in runCmd: success, failure with
an exit code (exec.ExitError), or failure to start. -/

structure RunContext where
  Errors : List String := []
  LastErrCode : Int := 0
deriving DecidableEq

def RunContext.AddError (c : RunContext) (e : String) : RunContext :=
  { c with Errors := c.Errors ++ [e] }

def RunContext.Reset (c : RunContext) : RunContext :=
  { c with LastErrCode := 0 }

def RunContext.SetLastErrCode (c : RunContext) (errCode : Int) : RunContext :=
  { c with LastErrCode := errCode }

def RunContext.IsErrored (c : RunContext) : Bool :=
  c.Errors.length > 0 || c.LastErrCode != 0

inductive ProcResult where
  | success
  | exitFailure (code : Int) (msg : String)
  | startFailure (msg : String)
deriving DecidableEq

abbrev ExecOracle := String → ProcResult

/-- CliModuleRunner.runCmd: run the command; on an exit error record the
exit code, and on any error append it to the context and return it. -/
def runCmd (oracle : ExecOracle) (ctx : RunContext) (cmd : String) :
    RunContext × Option String :=
  match oracle cmd with
  | ProcResult.success => (ctx, none)
  | ProcResult.exitFailure code msg => ((ctx.SetLastErrCode code).AddError msg, some msg)
  | ProcResult.startFailure msg => (ctx.AddError msg, some msg)

/-- The run context as it stands at the moment RunImage hands the built
command to runCmd (the start of the child process); none when BuildFrom
fails and no child is started. RunImage performs no reset. -/
def RunImageStartCtx (b : CliParts) (ctx : RunContext) (info : ImageInfo) :
    Option RunContext :=
  match (BuildFrom b info).2 with
  | Except.error _ => none
  | Except.ok _ => some ctx

/-- CliModuleRunner.RunImage: build the command from the descriptor (the
shared builder is mutated), record a build error, else run the command.
Returns the mutated builder with the updated context and error. -/
def RunImage (oracle : ExecOracle) (b : CliParts) (ctx : RunContext) (info : ImageInfo) :
    CliParts × RunContext × Option String :=
  let r0 := BuildFrom b info
  match r0.2 with
  | Except.error e => (r0.1, ctx.AddError e, some e)
  | Except.ok cmdStr =>
    let r := runCmd oracle ctx cmdStr
    (r0.1, r.1, r.2)

/-- The run context as it stands when Run hands the built command to
runCmd: Run resets the exit code field immediately before the invocation. -/
def RunStartCtx (ctx : RunContext) : RunContext := ctx.Reset

/-- CliModuleRunner.Run: build from the already-configured builder (this
never fails), reset the context, and run. -/
def Run (oracle : ExecOracle) (b : CliParts) (ctx : RunContext) :
    RunContext × Option String :=
  runCmd oracle (RunStartCtx ctx) (Build b)

/-! Fold lemmas describing how BuildFrom populates the builder. -/

lemma envvarFoldl (l : List EnvVarInfo) : ∀ p : CliParts,
    l.foldl (fun acc e => acc.WithEnvvar e.Name e.Value) p
      = { p with Envvars := p.Envvars ++ l } := by
  induction l with
  | nil => intro p; simp
  | cons e rest ih =>
    intro p
    rw [List.foldl_cons, ih]
    simp [CliParts.WithEnvvar]

lemma volumeFoldl (l : List VolumeInfo) : ∀ p : CliParts,
    l.foldl (fun acc v => acc.WithVolume v.Name v.MountPath) p
      = { p with VolumeMaps := p.VolumeMaps ++
            l.map (fun v => v.Name ++ ":" ++ v.MountPath) } := by
  induction l with
  | nil => intro p; simp
  | cons v rest ih =>
    intro p
    rw [List.foldl_cons, ih]
    simp [CliParts.WithVolume, CliParts.WithVolumeOpt]

/-- The builder populated from a descriptor the way the spec describes
BuildFrom: image set, environment variables and volume mounts appended. -/
def buildFromUpdated (b : CliParts) (info : ImageInfo) : CliParts :=
  { b with
      Image := info.Image
      Envvars := b.Envvars ++ info.EnvVars
      VolumeMaps := b.VolumeMaps ++
        info.Volumes.map (fun v => v.Name ++ ":" ++ v.MountPath) }

lemma buildFrom_ok (b : CliParts) (info : ImageInfo) (h : info.Command = []) :
    BuildFrom b info = (buildFromUpdated b info, Except.ok (Build (buildFromUpdated b info))) := by
  unfold BuildFrom buildFromUpdated
  rw [h]
  simp only [List.length_nil, gt_iff_lt, Nat.lt_irrefl, if_false]
  rw [envvarFoldl, volumeFoldl]
  simp [CliParts.WithImage]

/-- C5: BuildFrom rejects any descriptor with a non-empty command list with
the error message about unsupported commands and leaves the builder
untouched; with an empty command list it populates the image, appends the
environment variables and volume mounts, and delegates to Build. -/
theorem c5_buildfrom_command_unsupported :
    ∀ (b : CliParts) (info : ImageInfo),
      (info.Command ≠ [] →
        BuildFrom b info = (b, Except.error "command is not yet supported")) ∧
      (info.Command = [] →
        (BuildFrom b info).1.Image = info.Image ∧
        (BuildFrom b info).1.Envvars = b.Envvars ++ info.EnvVars ∧
        (BuildFrom b info).1.VolumeMaps = b.VolumeMaps ++
          info.Volumes.map (fun v => v.Name ++ ":" ++ v.MountPath) ∧
        (BuildFrom b info).2 = Except.ok (Build (BuildFrom b info).1)) := by
  intro b info
  constructor
  · intro h
    unfold BuildFrom
    have : info.Command.length > 0 := List.length_pos.mpr h
    simp [this]
  · intro h
    rw [buildFrom_ok b info h]
    exact ⟨rfl, rfl, rfl, rfl⟩

/-- C5 witness: both branches at concrete descriptors. -/
theorem c5_buildfrom_command_unsupported_witness :
    BuildFrom (NewPodmanCliCommandBuilder none "") { Command := ["sh"] }
      = (NewPodmanCliCommandBuilder none "", Except.error "command is not yet supported") ∧
    (BuildFrom (NewPodmanCliCommandBuilder none "") { Image := "localhost/x" }).1.Image
      = "localhost/x" :=
  ⟨(c5_buildfrom_command_unsupported (NewPodmanCliCommandBuilder none "")
      { Command := ["sh"] }).1 (by decide),
   ((c5_buildfrom_command_unsupported (NewPodmanCliCommandBuilder none "")
      { Image := "localhost/x" }).2 rfl).1⟩

/-- C6 counterexample: the claim that every invocation path of the runner,
including RunImage, resets LastErrCode to zero immediately before the
child process is started is false: RunImage hands runCmd the context
unchanged, so a context entering RunImage with LastErrCode 7 still has
LastErrCode 7 when the child starts. -/
theorem c6_counterexample :
    ¬ (∀ (b : CliParts) (ctx : RunContext) (info : ImageInfo) (s : RunContext),
        ((RunStartCtx ctx).LastErrCode = 0 ∧ (RunStartCtx ctx).Errors = ctx.Errors) ∧
        (RunImageStartCtx b ctx info = some s →
          s.LastErrCode = 0 ∧ s.Errors = ctx.Errors)) := by
  intro hclaim
  have h := (hclaim (NewPodmanCliCommandBuilder none "")
    { Errors := [], LastErrCode := 7 } {} { Errors := [], LastErrCode := 7 }).2
  have h7 := (h (by decide)).1
  exact absurd h7 (by decide)

/-- C6 amended: Run resets LastErrCode to zero immediately before the child
process starts while preserving the error list, but RunImage starts the
child with the context exactly as it was handed in (no reset); on both
paths the accumulated error list is only ever appended to, never
cleared. -/
theorem c6_reset_on_run_only :
    ∀ (oracle : ExecOracle) (b : CliParts) (ctx : RunContext) (info : ImageInfo),
      ((RunStartCtx ctx).LastErrCode = 0 ∧ (RunStartCtx ctx).Errors = ctx.Errors) ∧
      (∀ s, RunImageStartCtx b ctx info = some s → s = ctx) ∧
      (∃ t, (Run oracle b ctx).1.Errors = ctx.Errors ++ t) ∧
      (∃ t, (RunImage oracle b ctx info).2.1.Errors = ctx.Errors ++ t) := by
  intro oracle b ctx info
  refine ⟨⟨rfl, rfl⟩, ?_, ?_, ?_⟩
  · intro s hs
    unfold RunImageStartCtx at hs
    cases hres : (BuildFrom b info).2 with
    | error e => rw [hres] at hs; exact absurd hs (by simp)
    | ok c =>
      rw [hres] at hs
      simp only [Option.some.injEq] at hs
      exact hs.symm
  · unfold Run runCmd
    cases oracle (Build b) with
    | success => exact ⟨[], by simp [RunStartCtx, RunContext.Reset]⟩
    | exitFailure code msg =>
      exact ⟨[msg], by
        simp [RunStartCtx, RunContext.Reset, RunContext.SetLastErrCode, RunContext.AddError]⟩
    | startFailure msg =>
      exact ⟨[msg], by simp [RunStartCtx, RunContext.Reset, RunContext.AddError]⟩
  · unfold RunImage
    cases hres : (BuildFrom b info).2 with
    | error e =>
      exact ⟨[e], by simp [hres, RunContext.AddError]⟩
    | ok c =>
      cases hora : oracle c with
      | success => exact ⟨[], by simp [hres, runCmd, hora]⟩
      | exitFailure code msg =>
        exact ⟨[msg], by
          simp [hres, runCmd, hora, RunContext.SetLastErrCode, RunContext.AddError]⟩
      | startFailure msg =>
        exact ⟨[msg], by simp [hres, runCmd, hora, RunContext.AddError]⟩

/-- C6 amended witness: the amended theorem applied at a concrete builder,
a context with a stale exit code, and the empty descriptor, with the
context-at-child-start hypothesis discharged at that concrete input. -/
theorem c6_reset_on_run_only_witness :
    (RunStartCtx { Errors := ["old"], LastErrCode := 7 }).LastErrCode = 0 ∧
    (RunStartCtx { Errors := ["old"], LastErrCode := 7 }).Errors = ["old"] ∧
    ({ Errors := ["old"], LastErrCode := 7 } : RunContext)
      = { Errors := ["old"], LastErrCode := 7 } :=
  ⟨(c6_reset_on_run_only (fun _ => ProcResult.success) (NewPodmanCliCommandBuilder none "")
      { Errors := ["old"], LastErrCode := 7 } {}).1.1,
   (c6_reset_on_run_only (fun _ => ProcResult.success) (NewPodmanCliCommandBuilder none "")
      { Errors := ["old"], LastErrCode := 7 } {}).1.2,
   (c6_reset_on_run_only (fun _ => ProcResult.success) (NewPodmanCliCommandBuilder none "")
      { Errors := ["old"], LastErrCode := 7 } {}).2.1
     { Errors := ["old"], LastErrCode := 7 } rfl⟩

/-- C7: sequential RunImage calls on the same runner accumulate builder
state: the first call appends the first descriptor's environment variables
and volume mounts to the shared builder, the second call builds its
command line from that accumulated builder, and the token list of the
command built for the second call still carries the -e and -v tokens
contributed by the first descriptor. -/
theorem c7_runimage_accumulates :
    ∀ (oracle : ExecOracle) (b : CliParts) (ctx : RunContext) (i1 i2 : ImageInfo),
      i1.Command = [] → i2.Command = [] →
      (RunImage oracle b ctx i1).1.Envvars = b.Envvars ++ i1.EnvVars ∧
      (RunImage oracle b ctx i1).1.VolumeMaps = b.VolumeMaps ++
        i1.Volumes.map (fun v => v.Name ++ ":" ++ v.MountPath) ∧
      (RunImage oracle ((RunImage oracle b ctx i1).1) ctx i2).1.Envvars =
        b.Envvars ++ i1.EnvVars ++ i2.EnvVars ∧
      (BuildFrom ((RunImage oracle b ctx i1).1) i2).2 =
        Except.ok (Build ((RunImage oracle ((RunImage oracle b ctx i1).1) ctx i2).1)) ∧
      (∀ e ∈ i1.EnvVars,
        ("-e " ++ e.render) ∈ cliTokens ((RunImage oracle ((RunImage oracle b ctx i1).1) ctx i2).1)) ∧
      (∀ v ∈ i1.Volumes,
        ("-v " ++ (v.Name ++ ":" ++ v.MountPath)) ∈
          cliTokens ((RunImage oracle ((RunImage oracle b ctx i1).1) ctx i2).1)) := by
  intro oracle b ctx i1 i2 h1 h2
  have hb1 : (RunImage oracle b ctx i1).1 = buildFromUpdated b i1 := by
    unfold RunImage
    rw [buildFrom_ok b i1 h1]
  have hb2 : (RunImage oracle ((RunImage oracle b ctx i1).1) ctx i2).1
      = buildFromUpdated (buildFromUpdated b i1) i2 := by
    rw [hb1]
    unfold RunImage
    rw [buildFrom_ok (buildFromUpdated b i1) i2 h2]
  refine ⟨?_, ?_, ?_, ?_, ?_, ?_⟩
  · rw [hb1]; rfl
  · rw [hb1]; rfl
  · rw [hb2]
    simp [buildFromUpdated, List.append_assoc]
  · rw [hb2, hb1, buildFrom_ok (buildFromUpdated b i1) i2 h2]
  · intro e he
    rw [hb2]
    have hmem : ("-e " ++ e.render) ∈
        (buildFromUpdated (buildFromUpdated b i1) i2).Envvars.map
          (fun x => "-e " ++ x.render) :=
      List.mem_map.mpr ⟨e, by simp [buildFromUpdated, he], rfl⟩
    unfold cliTokens
    exact List.mem_append_left _ (List.mem_append_right _ hmem)
  · intro v hv
    rw [hb2]
    have hmem : ("-v " ++ (v.Name ++ ":" ++ v.MountPath)) ∈
        (buildFromUpdated (buildFromUpdated b i1) i2).VolumeMaps.map
          (fun x => "-v " ++ x) :=
      List.mem_map.mpr ⟨v.Name ++ ":" ++ v.MountPath,
        by simp only [buildFromUpdated, List.mem_append, List.mem_map]
           exact Or.inl (Or.inr ⟨v, hv, rfl⟩), rfl⟩
    unfold cliTokens
    exact List.mem_append_left _ (List.mem_append_left _
      (List.mem_append_left _ (List.mem_append_right _ hmem)))

/-- C7 witness: the accumulation applied at two concrete descriptors. -/
theorem c7_runimage_accumulates_witness :
    (RunImage (fun _ => ProcResult.success) (NewPodmanCliCommandBuilder none "") {}
        { Image := "img1", EnvVars := [{ Name := "A", Value := "1" }] }).1.Envvars
      = [{ Name := "A", Value := "1" }] :=
  (c7_runimage_accumulates (fun _ => ProcResult.success) (NewPodmanCliCommandBuilder none "")
    {} { Image := "img1", EnvVars := [{ Name := "A", Value := "1" }] }
    { Image := "img2" } rfl rfl).1

/-! Lifecycle states. In Go, State is a string type and Done is defined as
PostDeployed, so the default order ends with the same string twice. -/

abbrev State := String

def None : State := "none"

def Invalid : State := "invalid"

def Initializing : State := "initializing"

def Configured : State := "configured"

def Validated : State := "validated"

def PreDeploying : State := "predeploying"

def PreDeployed : State := "predeployed"

def Deploying : State := "deploying"

def Deployed : State := "deployed"

def PostDeploying : State := "postdeploying"

def PostDeployed : State := "postdeployed"

def Done : State := PostDeployed

def Errored : State := "errored"

def DefaultOrder : List State :=
  [Invalid, Initializing, Configured, Validated, PreDeploying, PreDeployed,
   Deploying, Deployed, PostDeploying, PostDeployed, Done]

abbrev Hook := String

def ListHook : Hook := "list"

def ValidateHook : Hook := "validate"

def GetStateHook : Hook := "get_state"

/-! Module descriptor. -/

structure HookInfo where
  GetState : ImageInfo := {}
  List : ImageInfo := {}
  Validate : ImageInfo := {}
deriving DecidableEq

structure LifecycleInfo where
  PreDeploy : ImageInfo := {}
  Deploy : ImageInfo := {}
  PostDeploy : ImageInfo := {}
deriving DecidableEq

structure SpecInfo where
  Hooks : HookInfo := {}
  Lifecycle : LifecycleInfo := {}
deriving DecidableEq

structure MetadataInfo where
  Name : String := ""
  Namespace : String := ""
  Labels : List (String × String) := []
deriving DecidableEq

structure ModuleInfo where
  ApiVersion : String := ""
  Kind : String := ""
  Metadata : MetadataInfo := {}
  Specifications : SpecInfo := {}
deriving DecidableEq

/-! State handlers. In Go these are closures over the module; here they are
a small command datatype, interpreted by runStateCmd below: advanceTo s is
the pure transition handler, resolveState the stub that always notifies
Configured, runStage runs the given lifecycle stage image, noopHandler is
NoopHandler (which notifies Invalid), and doneHandler is DoneHandler
(which does nothing). -/

inductive Stage where
  | preDep
  | dep
  | postDep
deriving DecidableEq

inductive StateCmdE where
  | advanceTo (s : State)
  | resolveState
  | runStage (st : Stage)
  | noopHandler
  | doneHandler
deriving DecidableEq

structure DeployableModule where
  module : ModuleInfo
  cli : CliParts
  runCtx : RunContext
  cmds : List (State × StateCmdE) := []
  hooks : List (Hook × ImageInfo) := []
  previous : State := ""
  current : State := ""
  execOrder : List State := []
deriving DecidableEq

def DeployableModule.Notify (m : DeployableModule) (state : State) : DeployableModule :=
  { m with previous := m.current, current := state }

def DeployableModule.NotifyErr (m : DeployableModule) (state : State) (err : String) :
    DeployableModule :=
  { m with runCtx := m.runCtx.AddError err, previous := m.current, current := state }

def DeployableModule.AddCmd (m : DeployableModule) (status : State) (handler : StateCmdE) :
    DeployableModule × Option String :=
  match lookupAssoc m.cmds status with
  | none => ({ m with cmds := m.cmds ++ [(status, handler)] }, none)
  | some _ => (m, some ("handler for state " ++ status ++ " already exists"))

def DeployableModule.GetCmdFor (m : DeployableModule) (status : State) : Option StateCmdE :=
  lookupAssoc m.cmds status

def DeployableModule.GetHook (m : DeployableModule) (name : Hook) : Option ImageInfo :=
  lookupAssoc m.hooks name

def DeployableModule.addHook (m : DeployableModule) (name : Hook) (img : ImageInfo) :
    DeployableModule :=
  { m with hooks := updateAssoc m.hooks name img }

def DeployableModule.IsErrored (m : DeployableModule) : Bool :=
  m.current == Errored

/-- The loop inside the iterator: scan the execution order for the current
state and yield the handler registered for it (the Go code looks up
execOrder at the found index, which is the current state). A nil Go map
lookup is the none value. -/
def itrFind (m : DeployableModule) : List State → Option StateCmdE × Bool
  | [] => (some StateCmdE.noopHandler, false)
  | s :: rest =>
    if m.current = s then (m.GetCmdFor s, true) else itrFind m rest

/-- One call of the NextFunc closure returned by Itr. -/
def NextStep (m : DeployableModule) : Option StateCmdE × Bool :=
  if m.current = Done then (some StateCmdE.doneHandler, false)
  else if m.current = Errored then (some StateCmdE.doneHandler, false)
  else itrFind m m.execOrder

def stageImage (m : DeployableModule) : Stage → ImageInfo
  | Stage.preDep => m.module.Specifications.Lifecycle.PreDeploy
  | Stage.dep => m.module.Specifications.Lifecycle.Deploy
  | Stage.postDep => m.module.Specifications.Lifecycle.PostDeploy

def stageStartState : Stage → State
  | Stage.preDep => PreDeploying
  | Stage.dep => Deploying
  | Stage.postDep => PostDeploying

def stageOkState : Stage → State
  | Stage.preDep => PreDeployed
  | Stage.dep => Deployed
  | Stage.postDep => PostDeployed

/-- Interpreter for the state handlers, with the module itself as the
notifier (as the tests drive it). A stage handler notifies the stage's
starting state, runs the stage image through the shared runner (mutating
the shared builder), then notifies Errored on error and the stage's
success state otherwise, exactly as preDeploy, deploy and postDeploy do. -/
def runStateCmd (oracle : ExecOracle) (m : DeployableModule) (ctx : RunContext) :
    StateCmdE → DeployableModule × RunContext × Option String
  | StateCmdE.advanceTo s => (m.Notify s, ctx, none)
  | StateCmdE.resolveState => (m.Notify Configured, ctx, none)
  | StateCmdE.runStage st =>
    let m1 := m.Notify (stageStartState st)
    let r := RunImage oracle m1.cli ctx (stageImage m1 st)
    let m2 := { m1 with cli := r.1 }
    match r.2.2 with
    | some e => (m2.Notify Errored, r.2.1, some e)
    | none => (m2.Notify (stageOkState st), r.2.1, none)
  | StateCmdE.noopHandler => (m.Notify Invalid, ctx, none)
  | StateCmdE.doneHandler => (m, ctx, none)

/-- Invocation of a hook command: the closure built by getHookCmd runs the
captured image through the shared runner; only the runner state and the
run context change. -/
def invokeHook (oracle : ExecOracle) (m : DeployableModule) (img : ImageInfo)
    (ctx : RunContext) : DeployableModule × RunContext × Option String :=
  let r := RunImage oracle m.cli ctx img
  ({ m with cli := r.1 }, r.2.1, r.2.2)

/-- NewDeployableModule: fresh builder (no declared defaults, path from the
environment), hooks registered for list, validate and get_state, and the
state handlers registered in the constructor's order (AddCmd errors are
discarded, as in the Go code). -/
def NewDeployableModule (runCtx : RunContext) (module : ModuleInfo) (envPodmanPath : String) :
    DeployableModule :=
  let builder := NewPodmanCliCommandBuilder none envPodmanPath
  let d0 : DeployableModule :=
    { module := module, cli := builder, runCtx := runCtx,
      execOrder := DefaultOrder, current := Invalid }
  let d1 := d0.addHook ListHook module.Specifications.Hooks.List
  let d2 := d1.addHook ValidateHook module.Specifications.Hooks.Validate
  let d3 := d2.addHook GetStateHook module.Specifications.Hooks.GetState
  let d4 := (d3.AddCmd Invalid (StateCmdE.advanceTo Initializing)).1
  let d5 := (d4.AddCmd Initializing StateCmdE.resolveState).1
  let d6 := (d5.AddCmd Configured (StateCmdE.advanceTo Validated)).1
  let d7 := (d6.AddCmd Validated (StateCmdE.advanceTo PreDeploying)).1
  let d8 := (d7.AddCmd PreDeploying (StateCmdE.runStage Stage.preDep)).1
  let d9 := (d8.AddCmd PreDeployed (StateCmdE.advanceTo Deploying)).1
  let d10 := (d9.AddCmd Deploying (StateCmdE.runStage Stage.dep)).1
  let d11 := (d10.AddCmd Deployed (StateCmdE.advanceTo PostDeploying)).1
  let d12 := (d11.AddCmd PostDeploying (StateCmdE.runStage Stage.postDep)).1
  let d13 := (d12.AddCmd PostDeployed (StateCmdE.advanceTo Done)).1
  d13

/-- The driving loop of the tests: call the iterator, invoke the yielded
handler, count the iteration, and continue while the iterator reported
more steps. Fuel bounds the recursion. -/
def driveLoop (oracle : ExecOracle) :
    Nat → DeployableModule → RunContext → Nat → DeployableModule × RunContext × Nat
  | 0, m, ctx, count => (m, ctx, count)
  | fuel + 1, m, ctx, count =>
    let step := NextStep m
    let r :=
      match step.1 with
      | some c => runStateCmd oracle m ctx c
      | none => (m, ctx, none)
    if step.2 then driveLoop oracle fuel r.1 r.2.1 (count + 1)
    else (r.1, r.2.1, count + 1)

set_option maxHeartbeats 2000000 in
lemma newDeployableModule_eq (rc : RunContext) (mod : ModuleInfo) (ep : String) :
    NewDeployableModule rc mod ep =
      { module := mod
        cli := NewPodmanCliCommandBuilder none ep
        runCtx := rc
        cmds := [(Invalid, StateCmdE.advanceTo Initializing),
                 (Initializing, StateCmdE.resolveState),
                 (Configured, StateCmdE.advanceTo Validated),
                 (Validated, StateCmdE.advanceTo PreDeploying),
                 (PreDeploying, StateCmdE.runStage Stage.preDep),
                 (PreDeployed, StateCmdE.advanceTo Deploying),
                 (Deploying, StateCmdE.runStage Stage.dep),
                 (Deployed, StateCmdE.advanceTo PostDeploying),
                 (PostDeploying, StateCmdE.runStage Stage.postDep),
                 (PostDeployed, StateCmdE.advanceTo Done)]
        hooks := [(ListHook, mod.Specifications.Hooks.List),
                  (ValidateHook, mod.Specifications.Hooks.Validate),
                  (GetStateHook, mod.Specifications.Hooks.GetState)]
        previous := ""
        current := Invalid
        execOrder := DefaultOrder } := by
  simp only [NewDeployableModule, DeployableModule.addHook, DeployableModule.AddCmd,
    updateAssoc, lookupAssoc, ListHook, ValidateHook, GetStateHook, Invalid, Initializing,
    Configured, Validated, PreDeploying, PreDeployed, Deploying, Deployed, PostDeploying,
    PostDeployed, Done, Errored, DefaultOrder, String.reduceEq, reduceIte,
    List.nil_append, List.singleton_append, List.cons_append]

lemma itrFind_mem (m : DeployableModule) :
    ∀ l : List State, m.current ∈ l → itrFind m l = (m.GetCmdFor m.current, true) := by
  intro l hl
  induction l with
  | nil => cases hl
  | cons s rest ih =>
    unfold itrFind
    by_cases h : m.current = s
    · simp [h]
    · rw [if_neg h]
      cases List.mem_cons.mp hl with
      | inl hbad => exact absurd hbad h
      | inr htail => exact ih htail

/-- C2: requesting the next step when the current state is done or errored
reports no further step and yields DoneHandler, which changes nothing when
invoked; for any other current state appearing in the execution order, the
iterator yields the handler registered for the current state itself and
reports more steps available. -/
theorem c2_itr_current_state :
    (∀ (oracle : ExecOracle) (m : DeployableModule) (ctx : RunContext),
      runStateCmd oracle m ctx StateCmdE.doneHandler = (m, ctx, none)) ∧
    (∀ m : DeployableModule, m.current = Done ∨ m.current = Errored →
      NextStep m = (some StateCmdE.doneHandler, false)) ∧
    (∀ m : DeployableModule, m.current ≠ Done → m.current ≠ Errored →
      m.current ∈ m.execOrder → NextStep m = (m.GetCmdFor m.current, true)) := by
  refine ⟨fun _ _ _ => rfl, ?_, ?_⟩
  · intro m h
    unfold NextStep
    cases h with
    | inl hd => rw [if_pos hd]
    | inr he =>
      have hne : m.current ≠ Done := by
        rw [he]
        decide
      rw [if_neg hne, if_pos he]
  · intro m hd he hmem
    unfold NextStep
    rw [if_neg hd, if_neg he]
    exact itrFind_mem m m.execOrder hmem

/-- C2 witness: on a freshly constructed module (current state invalid) the
iterator yields the handler registered for the invalid state and reports
more steps. -/
theorem c2_itr_current_state_witness :
    NextStep (NewDeployableModule {} {} "")
      = ((NewDeployableModule {} {} "").GetCmdFor (NewDeployableModule {} {} "").current,
         true) :=
  c2_itr_current_state.2.2 (NewDeployableModule {} {} "")
    (by decide) (by decide) (by decide)

lemma lookupAssoc_append_self {β : Type} :
    ∀ (l : List (String × β)) (s : String) (h : β),
      lookupAssoc l s = none → lookupAssoc (l ++ [(s, h)]) s = some h := by
  intro l s h hnone
  induction l with
  | nil => simp [lookupAssoc]
  | cons p rest ih =>
    rw [List.cons_append]
    simp only [lookupAssoc] at hnone ⊢
    by_cases hp : p.1 = s
    · rw [if_pos hp] at hnone
      cases hnone
    · rw [if_neg hp] at hnone ⊢
      exact ih hnone

/-- C9: registering a handler for a state that already has one returns the
already-exists error and leaves both the module and the original
registration intact; registering for a state with no handler succeeds,
returns no error, and the handler is subsequently found. -/
theorem c9_addcmd_exclusive :
    ∀ (m : DeployableModule) (s : State) (h h0 : StateCmdE),
      (m.GetCmdFor s = none →
        m.AddCmd s h = ({ m with cmds := m.cmds ++ [(s, h)] }, none) ∧
        (m.AddCmd s h).1.GetCmdFor s = some h) ∧
      (m.GetCmdFor s = some h0 →
        m.AddCmd s h = (m, some ("handler for state " ++ s ++ " already exists")) ∧
        (m.AddCmd s h).1.GetCmdFor s = some h0) := by
  intro m s h h0
  constructor
  · intro hnone
    unfold DeployableModule.GetCmdFor at hnone
    unfold DeployableModule.AddCmd
    rw [hnone]
    exact ⟨rfl, lookupAssoc_append_self m.cmds s h hnone⟩
  · intro hsome
    unfold DeployableModule.GetCmdFor at hsome
    unfold DeployableModule.AddCmd
    rw [hsome]
    exact ⟨rfl, hsome⟩

/-- C9 witness: on a fresh module, adding a second handler for the invalid
state fails with the already-exists error and keeps the original handler,
while adding a handler for an unused state succeeds. -/
theorem c9_addcmd_exclusive_witness :
    ((NewDeployableModule {} {} "").AddCmd Invalid StateCmdE.resolveState
        = (NewDeployableModule {} {} "",
           some ("handler for state " ++ Invalid ++ " already exists")) ∧
      ((NewDeployableModule {} {} "").AddCmd Invalid StateCmdE.resolveState).1.GetCmdFor Invalid
        = some (StateCmdE.advanceTo Initializing)) ∧
    ((NewDeployableModule {} {} "").AddCmd None StateCmdE.resolveState).2 = none :=
  ⟨(c9_addcmd_exclusive (NewDeployableModule {} {} "") Invalid StateCmdE.resolveState
      (StateCmdE.advanceTo Initializing)).2 (by decide),
   by rw [((c9_addcmd_exclusive (NewDeployableModule {} {} "") None StateCmdE.resolveState
        StateCmdE.resolveState).1 (by decide)).1]⟩

/-- C8: invoking a registered hook never changes the lifecycle state: the
current and previous states after the hook invocation equal those before
it, for any module at any point of its lifetime; in particular on a fresh
module the list hook is registered with the descriptor's list image, the
current state is invalid, and invoking the list hook leaves it invalid. -/
theorem c8_hooks_preserve_state :
    (∀ (oracle : ExecOracle) (m : DeployableModule) (name : Hook) (img : ImageInfo)
        (ctx : RunContext),
      m.GetHook name = some img →
      (invokeHook oracle m img ctx).1.current = m.current ∧
      (invokeHook oracle m img ctx).1.previous = m.previous) ∧
    (∀ (oracle : ExecOracle) (rc ctx : RunContext) (mod : ModuleInfo) (ep : String),
      (NewDeployableModule rc mod ep).GetHook ListHook
        = some mod.Specifications.Hooks.List ∧
      (NewDeployableModule rc mod ep).current = Invalid ∧
      (invokeHook oracle (NewDeployableModule rc mod ep)
          mod.Specifications.Hooks.List ctx).1.current = Invalid) := by
  refine ⟨fun _ _ _ _ _ _ => ⟨rfl, rfl⟩, ?_⟩
  intro oracle rc ctx mod ep
  rw [newDeployableModule_eq]
  refine ⟨?_, rfl, rfl⟩
  simp [DeployableModule.GetHook, lookupAssoc, ListHook, ValidateHook, GetStateHook]

/-- C8 witness: the preservation part applied to the list hook of a fresh
module built from the empty descriptor. -/
theorem c8_hooks_preserve_state_witness :
    (invokeHook (fun _ => ProcResult.success) (NewDeployableModule {} {} "")
        ({} : ImageInfo) {}).1.current = (NewDeployableModule {} {} "").current :=
  (c8_hooks_preserve_state.1 (fun _ => ProcResult.success) (NewDeployableModule {} {} "")
    ListHook ({} : ImageInfo) {} (by decide)).1

lemma stageImage_notify (m : DeployableModule) (x : State) (st : Stage) :
    stageImage (m.Notify x) st = stageImage m st := by
  cases st <;> rfl

lemma notify_cli (m : DeployableModule) (x : State) : (m.Notify x).cli = m.cli := rfl

/-- C4: a lifecycle-stage handler whose underlying process run fails leaves
the current state errored, appends exactly one error to the run context it
was invoked with, makes IsErrored true, and the iterator thereafter
reports no further steps. -/
theorem c4_stage_failure :
    ∀ (oracle : ExecOracle) (m : DeployableModule) (ctx : RunContext) (st : Stage),
      (stageImage m st).Command = [] →
      oracle (Build (buildFromUpdated m.cli (stageImage m st))) ≠ ProcResult.success →
      (runStateCmd oracle m ctx (StateCmdE.runStage st)).1.current = Errored ∧
      (∃ e, (runStateCmd oracle m ctx (StateCmdE.runStage st)).2.1.Errors
        = ctx.Errors ++ [e]) ∧
      (runStateCmd oracle m ctx (StateCmdE.runStage st)).1.IsErrored = true ∧
      NextStep (runStateCmd oracle m ctx (StateCmdE.runStage st)).1
        = (some StateCmdE.doneHandler, false) := by
  intro oracle m ctx st hcmd hfail
  have hbf := buildFrom_ok m.cli (stageImage m st) hcmd
  have hrun : runStateCmd oracle m ctx (StateCmdE.runStage st) =
      (let r := runCmd oracle ctx (Build (buildFromUpdated m.cli (stageImage m st)))
       match r.2 with
       | some e =>
         ({ m.Notify (stageStartState st) with
             cli := buildFromUpdated m.cli (stageImage m st) }.Notify Errored, r.1, some e)
       | none =>
         ({ m.Notify (stageStartState st) with
             cli := buildFromUpdated m.cli (stageImage m st) }.Notify (stageOkState st),
          r.1, none)) := by
    simp only [runStateCmd, stageImage_notify, notify_cli, RunImage, hbf]
  rcases horacle : oracle (Build (buildFromUpdated m.cli (stageImage m st)))
    with _ | ⟨code, msg⟩ | msg
  · exact absurd horacle hfail
  · rw [hrun]
    simp only [runCmd, horacle]
    refine ⟨rfl, ⟨msg, rfl⟩, rfl, ?_⟩
    simp [NextStep, DeployableModule.Notify, Errored, Done, PostDeployed,
      String.reduceEq, reduceIte]
  · rw [hrun]
    simp only [runCmd, horacle]
    refine ⟨rfl, ⟨msg, rfl⟩, rfl, ?_⟩
    simp [NextStep, DeployableModule.Notify, Errored, Done, PostDeployed,
      String.reduceEq, reduceIte]

/-- C4 witness: the pre-deploy stage handler of a fresh module with a child
process that exits 1. -/
theorem c4_stage_failure_witness :
    (runStateCmd (fun _ => ProcResult.exitFailure 1 "boom") (NewDeployableModule {} {} "")
        {} (StateCmdE.runStage Stage.preDep)).1.current = Errored ∧
    (runStateCmd (fun _ => ProcResult.exitFailure 1 "boom") (NewDeployableModule {} {} "")
        {} (StateCmdE.runStage Stage.preDep)).1.IsErrored = true :=
  ⟨(c4_stage_failure (fun _ => ProcResult.exitFailure 1 "boom") (NewDeployableModule {} {} "")
      {} Stage.preDep (by decide) (by decide)).1,
   (c4_stage_failure (fun _ => ProcResult.exitFailure 1 "boom") (NewDeployableModule {} {} "")
      {} Stage.preDep (by decide) (by decide)).2.2.1⟩

lemma driveLoop_succ (oracle : ExecOracle) (fuel : Nat) (m : DeployableModule)
    (ctx : RunContext) (count : Nat) :
    driveLoop oracle (fuel + 1) m ctx count =
      (let step := NextStep m
       let r :=
         match step.1 with
         | some c => runStateCmd oracle m ctx c
         | none => (m, ctx, none)
       if step.2 then driveLoop oracle fuel r.1 r.2.1 (count + 1)
       else (r.1, r.2.1, count + 1)) := rfl

lemma runStage_success (oracle : ExecOracle) (m : DeployableModule) (ctx : RunContext)
    (st : Stage) (hcmd : (stageImage m st).Command = [])
    (hok : ∀ cmd, oracle cmd = ProcResult.success) :
    runStateCmd oracle m ctx (StateCmdE.runStage st) =
      (({ m.Notify (stageStartState st) with
            cli := buildFromUpdated m.cli (stageImage m st) }).Notify (stageOkState st),
       ctx, none) := by
  have hbf := buildFrom_ok m.cli (stageImage m st) hcmd
  simp only [runStateCmd, stageImage_notify, notify_cli, RunImage, hbf, runCmd, hok]

/-- C3 counterexample: driving the loop from a fresh module with all stage
commands succeeding takes 10 iterations, not 11, so the claim that the
number of steps equals the number of entries in the default order (11,
because the order ends with done duplicating post-deployed) is false at
this concrete scenario; the drive does end at done. -/
theorem c3_step_count_counterexample :
    ¬ ((driveLoop (fun _ => ProcResult.success) 16 (NewDeployableModule {} {} "") {} 0).2.2
        = DefaultOrder.length) ∧
    (driveLoop (fun _ => ProcResult.success) 16 (NewDeployableModule {} {} "") {} 0).2.2 = 10 ∧
    (driveLoop (fun _ => ProcResult.success) 16 (NewDeployableModule {} {} "") {} 0).1.current
      = Done ∧
    DefaultOrder.length = 11 :=
  ⟨by decide, by decide, by decide, by decide⟩

set_option maxHeartbeats 2000000 in
/-- C3 amended: driving the step iterator of a freshly constructed module in
the test loop with every stage command succeeding ends in state done with
IsErrored false after exactly one iteration fewer than the number of
entries in the default order (ten iterations: nine state-advancing steps
plus the final terminal yield; the order lists eleven entries because done
duplicates post-deployed). -/
theorem c3_happy_path_steps :
    ∀ (oracle : ExecOracle) (rc : RunContext) (mod : ModuleInfo) (ep : String) (k : Nat),
      (∀ cmd, oracle cmd = ProcResult.success) →
      mod.Specifications.Lifecycle.PreDeploy.Command = [] →
      mod.Specifications.Lifecycle.Deploy.Command = [] →
      mod.Specifications.Lifecycle.PostDeploy.Command = [] →
      (driveLoop oracle (k + DefaultOrder.length) (NewDeployableModule rc mod ep) rc 0).1.current
          = Done ∧
      (driveLoop oracle (k + DefaultOrder.length) (NewDeployableModule rc mod ep) rc 0).1.IsErrored
          = false ∧
      (driveLoop oracle (k + DefaultOrder.length) (NewDeployableModule rc mod ep) rc 0).2.2
          = DefaultOrder.length - 1 := by
  intro oracle rc mod ep k hok hPre hDep hPost
  obtain ⟨apiv, kind, md, ⟨hks, ⟨⟨pimg, pscr, pcmd, pargs, penv, pvol⟩,
    ⟨dimg, dscr, dcmd, dargs, denv, dvol⟩, ⟨oimg, oscr, ocmd, oargs, oenv, ovol⟩⟩⟩⟩ := mod
  simp only [] at hPre hDep hPost
  subst hPre hDep hPost
  rw [newDeployableModule_eq]
  simp only [show DefaultOrder.length = 11 from rfl]
  rw [show k + 11 = k + 10 + 1 by omega, driveLoop_succ]
  simp only [NextStep, itrFind, DeployableModule.GetCmdFor, lookupAssoc,
    runStateCmd, RunImage, BuildFrom, runCmd, hok, DeployableModule.Notify,
    stageImage, stageStartState, stageOkState,
    Invalid, Initializing, Configured, Validated, PreDeploying, PreDeployed, Deploying,
    Deployed, PostDeploying, PostDeployed, Done, Errored, DefaultOrder,
    List.length_nil, gt_iff_lt, lt_self_iff_false, Bool.false_eq_true,
    String.reduceEq, reduceIte, Nat.reduceAdd]
  rw [show k + 10 = k + 9 + 1 by omega, driveLoop_succ]
  simp only [NextStep, itrFind, DeployableModule.GetCmdFor, lookupAssoc,
    runStateCmd, RunImage, BuildFrom, runCmd, hok, DeployableModule.Notify,
    stageImage, stageStartState, stageOkState,
    Invalid, Initializing, Configured, Validated, PreDeploying, PreDeployed, Deploying,
    Deployed, PostDeploying, PostDeployed, Done, Errored, DefaultOrder,
    List.length_nil, gt_iff_lt, lt_self_iff_false, Bool.false_eq_true,
    String.reduceEq, reduceIte, Nat.reduceAdd]
  rw [show k + 9 = k + 8 + 1 by omega, driveLoop_succ]
  simp only [NextStep, itrFind, DeployableModule.GetCmdFor, lookupAssoc,
    runStateCmd, RunImage, BuildFrom, runCmd, hok, DeployableModule.Notify,
    stageImage, stageStartState, stageOkState,
    Invalid, Initializing, Configured, Validated, PreDeploying, PreDeployed, Deploying,
    Deployed, PostDeploying, PostDeployed, Done, Errored, DefaultOrder,
    List.length_nil, gt_iff_lt, lt_self_iff_false, Bool.false_eq_true,
    String.reduceEq, reduceIte, Nat.reduceAdd]
  rw [show k + 8 = k + 7 + 1 by omega, driveLoop_succ]
  simp only [NextStep, itrFind, DeployableModule.GetCmdFor, lookupAssoc,
    runStateCmd, RunImage, BuildFrom, runCmd, hok, DeployableModule.Notify,
    stageImage, stageStartState, stageOkState,
    Invalid, Initializing, Configured, Validated, PreDeploying, PreDeployed, Deploying,
    Deployed, PostDeploying, PostDeployed, Done, Errored, DefaultOrder,
    List.length_nil, gt_iff_lt, lt_self_iff_false, Bool.false_eq_true,
    String.reduceEq, reduceIte, Nat.reduceAdd]
  rw [show k + 7 = k + 6 + 1 by omega, driveLoop_succ]
  simp only [NextStep, itrFind, DeployableModule.GetCmdFor, lookupAssoc,
    runStateCmd, RunImage, BuildFrom, runCmd, hok, DeployableModule.Notify,
    stageImage, stageStartState, stageOkState,
    Invalid, Initializing, Configured, Validated, PreDeploying, PreDeployed, Deploying,
    Deployed, PostDeploying, PostDeployed, Done, Errored, DefaultOrder,
    List.length_nil, gt_iff_lt, lt_self_iff_false, Bool.false_eq_true,
    String.reduceEq, reduceIte, Nat.reduceAdd]
  rw [show k + 6 = k + 5 + 1 by omega, driveLoop_succ]
  simp only [NextStep, itrFind, DeployableModule.GetCmdFor, lookupAssoc,
    runStateCmd, RunImage, BuildFrom, runCmd, hok, DeployableModule.Notify,
    stageImage, stageStartState, stageOkState,
    Invalid, Initializing, Configured, Validated, PreDeploying, PreDeployed, Deploying,
    Deployed, PostDeploying, PostDeployed, Done, Errored, DefaultOrder,
    List.length_nil, gt_iff_lt, lt_self_iff_false, Bool.false_eq_true,
    String.reduceEq, reduceIte, Nat.reduceAdd]
  rw [show k + 5 = k + 4 + 1 by omega, driveLoop_succ]
  simp only [NextStep, itrFind, DeployableModule.GetCmdFor, lookupAssoc,
    runStateCmd, RunImage, BuildFrom, runCmd, hok, DeployableModule.Notify,
    stageImage, stageStartState, stageOkState,
    Invalid, Initializing, Configured, Validated, PreDeploying, PreDeployed, Deploying,
    Deployed, PostDeploying, PostDeployed, Done, Errored, DefaultOrder,
    List.length_nil, gt_iff_lt, lt_self_iff_false, Bool.false_eq_true,
    String.reduceEq, reduceIte, Nat.reduceAdd]
  rw [show k + 4 = k + 3 + 1 by omega, driveLoop_succ]
  simp only [NextStep, itrFind, DeployableModule.GetCmdFor, lookupAssoc,
    runStateCmd, RunImage, BuildFrom, runCmd, hok, DeployableModule.Notify,
    stageImage, stageStartState, stageOkState,
    Invalid, Initializing, Configured, Validated, PreDeploying, PreDeployed, Deploying,
    Deployed, PostDeploying, PostDeployed, Done, Errored, DefaultOrder,
    List.length_nil, gt_iff_lt, lt_self_iff_false, Bool.false_eq_true,
    String.reduceEq, reduceIte, Nat.reduceAdd]
  rw [show k + 3 = k + 2 + 1 by omega, driveLoop_succ]
  simp only [NextStep, itrFind, DeployableModule.GetCmdFor, lookupAssoc,
    runStateCmd, RunImage, BuildFrom, runCmd, hok, DeployableModule.Notify,
    stageImage, stageStartState, stageOkState,
    Invalid, Initializing, Configured, Validated, PreDeploying, PreDeployed, Deploying,
    Deployed, PostDeploying, PostDeployed, Done, Errored, DefaultOrder,
    List.length_nil, gt_iff_lt, lt_self_iff_false, Bool.false_eq_true,
    String.reduceEq, reduceIte, Nat.reduceAdd]
  rw [show k + 2 = k + 1 + 1 by omega, driveLoop_succ]
  simp only [NextStep, itrFind, DeployableModule.GetCmdFor, lookupAssoc,
    runStateCmd, RunImage, BuildFrom, runCmd, hok, DeployableModule.Notify,
    stageImage, stageStartState, stageOkState,
    Invalid, Initializing, Configured, Validated, PreDeploying, PreDeployed, Deploying,
    Deployed, PostDeploying, PostDeployed, Done, Errored, DefaultOrder,
    List.length_nil, gt_iff_lt, lt_self_iff_false, Bool.false_eq_true,
    String.reduceEq, reduceIte, Nat.reduceAdd]
  exact ⟨trivial, rfl, trivial⟩

/-- C3 amended witness: the amended theorem at the empty module descriptor,
an always-succeeding oracle, and minimal fuel. -/
theorem c3_happy_path_steps_witness :
    (driveLoop (fun _ => ProcResult.success) (0 + DefaultOrder.length)
        (NewDeployableModule {} {} "") {} 0).1.current = Done ∧
    (driveLoop (fun _ => ProcResult.success) (0 + DefaultOrder.length)
        (NewDeployableModule {} {} "") {} 0).2.2 = DefaultOrder.length - 1 :=
  ⟨(c3_happy_path_steps (fun _ => ProcResult.success) {} {} "" 0
      (fun _ => rfl) rfl rfl rfl).1,
   (c3_happy_path_steps (fun _ => ProcResult.success) {} {} "" 0
      (fun _ => rfl) rfl rfl rfl).2.2⟩

end Atkmod
